import Mathlib

/-!
Verification development for the meeting transcription backend
(`backend/app`): a shallow embedding of the meeting lifecycle controller
(`services/transcriber.py`), the audio capture services
(`services/audio_capture.py`, `services/macos_audio_capture.py`), and the
WebSocket status-update fan-out (`routers/meetings.py`), together with
theorems settling the specified behavioural properties.

Conventions of the embedding:
- Python dictionaries used as records become Lean structures; the
  `active_meetings` / `active_recordings` registries become association
  lists keyed by the id string.
- Wall-clock timestamps are modelled as natural numbers of seconds.
- Results of calls into external collaborators (the audio backend, the
  speech-to-text engine, the summarization engine, the filesystem,
  the random generator) are passed in as explicit environment values,
  so every function is a pure state transformer.
- `numpy` int16 sample data is modelled as `Int`, float32 sample data as
  `ℚ` (the mixing arithmetic is exact at the granularity the properties
  talk about; no claim here concerns float rounding).
-/

namespace Transcriber

/-- One transcript segment as produced by the speech-to-text engine
(`_transcribe_audio` builds dicts with `text`, `start`, `end`). -/
structure Segment where
  text : String
  startSec : Int
  endSec : Int
deriving Repr, DecidableEq

/-- The per-meeting record stored in `TranscriberService.active_meetings`
(the ad-hoc dict built in `start_meeting` and mutated by `stop_meeting`
and `_process_meeting`). Thread handles and stop flags are concurrency
plumbing and are not part of the state the claims talk about. -/
structure Meeting where
  id : String
  title : String
  startTime : Nat
  status : String
  participants : List String
  audioFile : Option String
  transcriptPath : Option String
  summaryPath : Option String
  deviceId : Option String
  usingSystemAudio : Bool
  endTime : Option Nat
  durationSeconds : Option Nat
  transcriptSegments : List Segment
  currentTranscript : Option String
  summaryContent : Option String
deriving Repr, DecidableEq

/-- The `active_meetings` registry: id → meeting record. -/
abbrev Registry := List (String × Meeting)

/-- Environment for `start_meeting`: the wall clock and the result of the
call `audio_service.start_recording(...)`. -/
structure StartEnv where
  now : Nat
  audioStartResult : Bool × String
deriving Repr, DecidableEq

/-- `TranscriberService.start_meeting`. Returns the `(success, message)`
pair of the source together with the updated registry. The permission
dialog shown before the registry check is a UI side effect with no state.
-/
def start_meeting (reg : Registry) (meetingId title : String)
    (participants : List String) (deviceId : Option String)
    (captureSystemAudio : Bool) (env : StartEnv) :
    Bool × String × Registry :=
  -- `if meeting_id in self.active_meetings: return False, "Meeting already in progress"`
  if (reg.lookup meetingId).isSome then
    (false, "Meeting already in progress", reg)
  else
    let meetingData : Meeting :=
      { id := meetingId
        title := title
        startTime := env.now
        status := "recording"
        participants := participants
        audioFile := none
        transcriptPath := none
        summaryPath := none
        deviceId := deviceId
        usingSystemAudio := captureSystemAudio
        endTime := none
        durationSeconds := none
        transcriptSegments := []
        currentTranscript := none
        summaryContent := none }
    match env.audioStartResult with
    | (false, msg) => (false, msg, reg)
    | (true, _) => (true, "Meeting started", (meetingId, meetingData) :: reg)

/-- Environment for `stop_meeting`: the wall clock and the result of
`audio_service.stop_recording(meeting_id)`. -/
structure StopEnv where
  now : Nat
  audioStopResult : Bool × String
deriving Repr, DecidableEq

/-- Replace the entry for `key` in an association list (in-place dict
mutation `self.active_meetings[meeting_id] = ...`). -/
def setEntry (reg : Registry) (key : String) (m : Meeting) : Registry :=
  reg.map (fun p => if p.1 = key then (key, m) else p)

/-- `TranscriberService.stop_meeting` up to the point where the background
processing thread is spawned. `duration_seconds` is
`(end_time - start_time).seconds`, the seconds-within-a-day component of
the elapsed `timedelta`: whole days are discarded, i.e. the value is the
elapsed seconds modulo 86400. -/
def stop_meeting (reg : Registry) (meetingId : String) (env : StopEnv) :
    Bool × String × Registry :=
  match reg.lookup meetingId with
  | none => (false, "Meeting not found", reg)
  | some meeting =>
    if meeting.status ≠ "recording" then
      (false, "Meeting is not recording, current status: " ++ meeting.status, reg)
    else
      match env.audioStopResult with
      | (false, msg) => (false, msg, reg)
      | (true, _) =>
        let meeting' :=
          { meeting with
            endTime := some env.now
            durationSeconds := some ((env.now - meeting.startTime) % 86400)
            status := "processing" }
        (true, "Meeting stopped, processing started", setEntry reg meetingId meeting')

/-! ### Finalize pipeline (`_process_meeting`, `_transcribe_audio`,
`_summarize_text`) -/

/-- `TranscriberService._transcribe_audio`. The whole body is wrapped in a
blanket `except Exception` handler, so a failure of the speech-to-text
engine (modelled by `engine = .error e`) is converted into the returned
transcript text `"Transcription failed: <e>"` with an empty segment list;
the helper itself never propagates an ordinary exception to its caller.
With no model loaded it returns a fixed unavailability message. On engine
success the transcript is the fold `transcript += segment.text + " "`. -/
def transcribe_audio (modelLoaded : Bool)
    (engine : Except String (List Segment)) : String × List Segment :=
  if modelLoaded then
    match engine with
    | .ok segs =>
      (segs.foldl (fun acc s => acc ++ s.text ++ " ") "", segs)
    | .error e => ("Transcription failed: " ++ e, [])
  else
    ("Transcription not available - no transcription engine installed", [])

/-- `TranscriberService._summarize_text`: on success of the external
summarization engine it returns the engine's text; on any exception the
handler logs and falls through the end of the function, i.e. returns
`None`. Modelled by passing the engine outcome through unchanged. -/
def summarize_text (engine : Option String) : Option String := engine

/-- The header-plus-body content written for the transcript and summary
markdown artifacts (`f.write` sequence in `_process_meeting`): heading,
date line, the interpolated `Duration: {duration_seconds} seconds` value,
the participants line and the free-text body. -/
structure Artifact where
  heading : String
  dateTime : Nat
  durationSeconds : Option Nat
  participants : List String
  body : String
deriving Repr, DecidableEq

/-- Environment for `_process_meeting`: outcomes of the calls into the
audio service, the filesystem and the two model helpers.
`transcribeCall` is the outcome of the statement
`transcript, segments = self._transcribe_audio(audio_file)`: `.error`
models that statement itself raising (the branch handled by the
`except` block that sets status `error` and the placeholder transcript),
while in the composed pipeline it is always `.ok (transcribe_audio ...)`
because `_transcribe_audio` catches engine exceptions internally. -/
structure ProcessEnv where
  audioData : Bool × Option (List Int) × String
  audioSaveOk : Bool
  modelLoadOk : Bool
  transcribeCall : Except String (String × List Segment)
  summarizeResult : Option String
  artifactWriteOk : Bool
deriving Repr

/-- Result of the pipeline: the updated meeting record plus the artifact
contents written to disk (`none` when the pipeline halted before the
corresponding write). -/
structure ProcessResult where
  meeting : Meeting
  transcriptArtifact : Option Artifact
  summaryArtifact : Option Artifact
deriving Repr, DecidableEq

/-- The fixed fallback summary substituted when `_summarize_text`
returns `None`. -/
def summaryFallback : String :=
  "Summary generation failed. Please review the transcript."

/-- `TranscriberService._process_meeting` on the meeting record `m`
(already placed in `processing` by `stop_meeting`). Each early `return`
of the source is a halting branch that leaves the remaining fields
untouched. -/
def process_meeting (m : Meeting) (audioFileName : String)
    (env : ProcessEnv) : ProcessResult :=
  -- success, audio_data, message = self.audio_service.get_audio_data(...)
  match env.audioData with
  | (false, _, _) => ⟨{ m with status := "error" }, none, none⟩
  | (true, audioData, _) =>
    -- invalid / empty audio data check
    match audioData with
    | none => ⟨{ m with status := "error" }, none, none⟩
    | some samples =>
      if samples.isEmpty then ⟨{ m with status := "error" }, none, none⟩
      else
        -- wavfile.write of the int16 conversion (failure = the except
        -- branch that sets status error and returns)
        if env.audioSaveOk = false then ⟨{ m with status := "error" }, none, none⟩
        else
          let m₁ := { m with audioFile := some audioFileName }
          -- self._load_whisper_model()
          if env.modelLoadOk = false then ⟨{ m₁ with status := "error" }, none, none⟩
          else
            -- transcript, segments = self._transcribe_audio(audio_file)
            match env.transcribeCall with
            | .error _ =>
              ⟨{ m₁ with
                  status := "error"
                  transcriptSegments := []
                  currentTranscript := some "Transcription failed" }, none, none⟩
            | .ok (transcript, segments) =>
              let m₂ := { m₁ with transcriptSegments := segments }
              -- summary = self._summarize_text(transcript); None → fallback
              let summary :=
                (summarize_text env.summarizeResult).getD summaryFallback
              let m₃ := { m₂ with summaryContent := some summary }
              if env.artifactWriteOk = false then
                ⟨{ m₃ with status := "error" }, none, none⟩
              else
                let transcriptArtifact : Artifact :=
                  ⟨"# " ++ m.title ++ " - Transcript", m.startTime,
                    m.durationSeconds, m.participants, transcript⟩
                let summaryArtifact : Artifact :=
                  ⟨"# " ++ m.title ++ " - Summary", m.startTime,
                    m.durationSeconds, m.participants, summary⟩
                ⟨{ m₃ with
                    transcriptPath := some (audioFileName ++ "_transcript.md")
                    summaryPath := some (audioFileName ++ "_summary.md")
                    status := "completed" },
                  some transcriptArtifact, some summaryArtifact⟩

/-- The composed finalize pipeline as it actually runs: the transcription
step is the total helper `transcribe_audio`, so `transcribeCall` is an
`.ok` value even when the engine itself failed. -/
def run_pipeline (m : Meeting) (audioFileName : String)
    (audioData : Bool × Option (List Int) × String)
    (audioSaveOk modelLoadOk : Bool)
    (engine : Except String (List Segment))
    (summarizeResult : Option String) (artifactWriteOk : Bool) :
    ProcessResult :=
  process_meeting m audioFileName
    { audioData := audioData
      audioSaveOk := audioSaveOk
      modelLoadOk := modelLoadOk
      transcribeCall := .ok (transcribe_audio modelLoadOk engine)
      summarizeResult := summarizeResult
      artifactWriteOk := artifactWriteOk }

end Transcriber

namespace AudioCapture

/-- A raw audio chunk: one bounded buffer of samples as appended by a
capture loop. The microphone capture loops open their input streams with
`channels=1`, so a chunk is a flat sample list. -/
abbrev Chunk := List Int

/-- `AudioCaptureService.get_chunk_since_index`. The recording's
`audio_data` chunk list is passed in (`none` models an unknown
`recording_id`). Return value mirrors the
`(success, data-or-None, new_index)` tuple; the error-message lane of the
middle slot is collapsed to `none` since `success` already discriminates.
-/
def get_chunk_since_index (recording : Option (List Chunk))
    (startIdx : Nat) : Bool × Option (List Int) × Nat :=
  match recording with
  | none => (false, none, startIdx)
  | some chunks =>
    -- if start_idx >= len(recording["audio_data"]): no new data
    if chunks.length ≤ startIdx then (true, none, startIdx)
    else
      let audioChunks := chunks.drop startIdx
      -- `if not audio_chunks` guard (unreachable when startIdx < length)
      if audioChunks.isEmpty then (true, none, startIdx)
      else (true, some audioChunks.flatten, chunks.length)

/-- `MacOSAudioCaptureService.get_chunk_since_index` over the recording's
`mic_audio_data`. A negative index is clamped to 0; chunks that are empty
arrays are filtered out before concatenation; the in-range silence branch
of the source (`chunk_index == 0` with an empty slice) is kept even though
it is unreachable once `chunk_index < len(mic_chunks)`. The channel-shape
normalization pass of the source is the identity here because microphone
chunks are captured mono (`channels=1`). `sampleRate` parametrizes the
one-second silence placeholder. -/
def macos_get_chunk_since_index (sampleRate : Nat)
    (recording : Option (List Chunk)) (chunkIndex₀ : Int) :
    Bool × Option (List Int) × Int :=
  match recording with
  | none => (false, none, chunkIndex₀)
  | some micChunks =>
    -- if chunk_index < 0: chunk_index = 0
    let chunkIndex : Nat := chunkIndex₀.toNat
    -- elif chunk_index >= len(mic_chunks): no new data
    if micChunks.length ≤ chunkIndex then (true, none, chunkIndex)
    else
      let sliced := micChunks.drop chunkIndex
      if sliced.isEmpty then
        if chunkIndex = 0 then
          (true, some (List.replicate sampleRate 0), 1)
        else (true, none, chunkIndex)
      else
        let validChunks := sliced.filter (fun c => !c.isEmpty)
        if validChunks.isEmpty then (true, none, chunkIndex)
        else
          (true, some validChunks.flatten,
            (chunkIndex : Int) + sliced.length)

end AudioCapture

namespace Mixer

/-- PCM sample data of a WAV file: int16 samples, mono (1-D array) or
stereo (frames × 2 array). -/
inductive AudioData
  | mono : List Int → AudioData
  | stereo : List (Int × Int) → AudioData
deriving Repr, DecidableEq

/-- Number of int16 samples stored in the data. -/
def AudioData.sampleCount : AudioData → Nat
  | .mono xs => xs.length
  | .stereo xs => 2 * xs.length

/-- A WAV file on disk as written/read through `scipy.io.wavfile`. -/
structure WavFile where
  sampleRate : Nat
  data : AudioData
deriving Repr, DecidableEq

/-- On-disk byte size of a PCM16 WAV file: the 44-byte RIFF header plus
two bytes per sample (`os.path.getsize` on files produced by
`wavfile.write`). -/
def WavFile.byteSize (f : WavFile) : Nat := 44 + 2 * f.data.sampleCount

/-- The validity test used throughout `_mix_audio_files`: the file exists
(`some`) and `os.path.getsize(...) >= 1000`. -/
def fileUsable : Option WavFile → Bool
  | none => false
  | some f => 1000 ≤ f.byteSize

/-- `astype(np.float32) / 32768.0` on one int16 sample. -/
def toFloatSample (x : Int) : ℚ := (x : ℚ) / 32768

/-- Normalized float sample data. -/
inductive QAudio
  | mono : List ℚ → QAudio
  | stereo : List (ℚ × ℚ) → QAudio
deriving Repr, DecidableEq

/-- The `data.astype(np.float32) / 32768.0` normalization. -/
def normalize : AudioData → QAudio
  | .mono xs => .mono (xs.map toFloatSample)
  | .stereo xs => .stereo (xs.map fun p => (toFloatSample p.1, toFloatSample p.2))

/-- `np.column_stack((d, d))` applied when the data is 1-D: duplicate a
mono signal into both stereo channels. -/
def ensureStereo : QAudio → List (ℚ × ℚ)
  | .mono xs => xs.map fun x => (x, x)
  | .stereo xs => xs

/-- Truncation toward zero of a rational, as performed per element by
`.astype(np.int16)` (values here are always within int16 range, so no
modular wrap occurs; see `mixSamples_output_bounded`). -/
def truncToInt (q : ℚ) : Int := if 0 ≤ q then ⌊q⌋ else -⌊-q⌋

/-- `np.max(np.abs(mixed_data))` over a stereo buffer, folded with
initial value 0 (equal to the numpy reduction on any non-empty buffer
since the reduced values are non-negative). -/
def peakAbs (mixed : List (ℚ × ℚ)) : ℚ :=
  mixed.foldl (fun acc p => max acc (max |p.1| |p.2|)) 0

/-- The arithmetic core of `_mix_audio_files` on two valid inputs, in
source order: normalize to float, duplicate mono to stereo, truncate both
to the shorter frame count, form `0.7 * mic + 0.3 * sys` per sample,
divide the whole buffer by its peak magnitude when that peak exceeds 1,
then scale by 32767 and truncate back to int16. -/
def mixSamples (mic sys : AudioData) : List (Int × Int) :=
  let micF := ensureStereo (normalize mic)
  let sysF := ensureStereo (normalize sys)
  -- min_len = min(len(mic_data), len(sys_data)); truncate both
  let minLen := min micF.length sysF.length
  let micT := micF.take minLen
  let sysT := sysF.take minLen
  -- mixed_data = 0.7 * mic_data + 0.3 * sys_data
  let mixed := micT.zipWith
    (fun m s => (7/10 * m.1 + 3/10 * s.1, 7/10 * m.2 + 3/10 * s.2)) sysT
  -- if max_val > 1.0: mixed_data /= max_val
  let maxVal := peakAbs mixed
  let rescaled := if 1 < maxVal then mixed.map (fun p => (p.1 / maxVal, p.2 / maxVal))
    else mixed
  -- (mixed_data * 32767).astype(np.int16)
  rescaled.map (fun p => (truncToInt (p.1 * 32767), truncToInt (p.2 * 32767)))

/-- The peak fold never goes below its initial accumulator. -/
theorem le_foldl_peak_init (l : List (ℚ × ℚ)) (a : ℚ) :
    a ≤ l.foldl (fun acc q => max acc (max |q.1| |q.2|)) a := by
  induction l generalizing a with
  | nil => simp
  | cons q qs ih => exact le_trans (le_max_left a _) (ih _)

/-- Every element's magnitude is bounded by the peak fold. -/
theorem maxAbs_le_foldl_peak (l : List (ℚ × ℚ)) (a : ℚ) (p : ℚ × ℚ)
    (hp : p ∈ l) :
    max |p.1| |p.2| ≤ l.foldl (fun acc q => max acc (max |q.1| |q.2|)) a := by
  induction l generalizing a with
  | nil => cases hp
  | cons q qs ih =>
    rcases List.mem_cons.mp hp with h | h
    · subst h
      exact le_trans (le_max_right a _) (le_foldl_peak_init qs _)
    · exact ih _ h

/-- Truncation toward zero stays within a symmetric integer bound. -/
theorem truncToInt_bound (q : ℚ) (b : Nat) (h : |q| ≤ (b : ℚ)) :
    -(b : Int) ≤ truncToInt q ∧ truncToInt q ≤ (b : Int) := by
  unfold truncToInt
  rcases abs_le.mp h with ⟨hlo, hhi⟩
  by_cases h0 : 0 ≤ q
  · rw [if_pos h0]
    have hnn : (0 : Int) ≤ ⌊q⌋ := Int.floor_nonneg.mpr h0
    have hub := Int.floor_le_floor hhi
    rw [Int.floor_natCast] at hub
    omega
  · rw [if_neg h0]
    have hq' : -q ≤ (b : ℚ) := by linarith
    have hub := Int.floor_le_floor hq'
    rw [Int.floor_natCast] at hub
    have hnn : (0 : Int) ≤ ⌊-q⌋ := Int.floor_nonneg.mpr (by linarith)
    omega

/-- The conditional rescale followed by int16 conversion keeps every
sample in `[-32767, 32767]`: the proportional rescale by the peak (rather
than hard clipping) is what prevents int16 wrap-around. -/
theorem rescale_stage_bounded (mixed : List (ℚ × ℚ)) (q : Int × Int)
    (hq : q ∈ ((if 1 < peakAbs mixed then
        mixed.map (fun p => (p.1 / peakAbs mixed, p.2 / peakAbs mixed))
      else mixed).map
        (fun p => (truncToInt (p.1 * 32767), truncToInt (p.2 * 32767))))) :
    -32767 ≤ q.1 ∧ q.1 ≤ 32767 ∧ -32767 ≤ q.2 ∧ q.2 ≤ 32767 := by
  rw [List.mem_map] at hq
  obtain ⟨p, hp, rfl⟩ := hq
  have habs : |p.1| ≤ 1 ∧ |p.2| ≤ 1 := by
    by_cases hpeak : 1 < peakAbs mixed
    · rw [if_pos hpeak, List.mem_map] at hp
      obtain ⟨r, hr, rfl⟩ := hp
      have hmax : max |r.1| |r.2| ≤ peakAbs mixed :=
        maxAbs_le_foldl_peak mixed 0 r hr
      have hpk0 : 0 < peakAbs mixed := lt_trans one_pos hpeak
      constructor
      · rw [abs_div, abs_of_pos hpk0]
        exact (div_le_one hpk0).mpr (le_trans (le_max_left _ _) hmax)
      · rw [abs_div, abs_of_pos hpk0]
        exact (div_le_one hpk0).mpr (le_trans (le_max_right _ _) hmax)
    · rw [if_neg hpeak] at hp
      push_neg at hpeak
      have hmax : max |p.1| |p.2| ≤ peakAbs mixed :=
        maxAbs_le_foldl_peak mixed 0 p hp
      exact ⟨le_trans (le_trans (le_max_left _ _) hmax) hpeak,
        le_trans (le_trans (le_max_right _ _) hmax) hpeak⟩
  have hb1 : |p.1 * 32767| ≤ ((32767 : Nat) : ℚ) := by
    rw [abs_mul]
    calc |p.1| * |(32767 : ℚ)| ≤ 1 * |(32767 : ℚ)| := by
          apply mul_le_mul_of_nonneg_right habs.1 (abs_nonneg _)
      _ = ((32767 : Nat) : ℚ) := by norm_num
  have hb2 : |p.2 * 32767| ≤ ((32767 : Nat) : ℚ) := by
    rw [abs_mul]
    calc |p.2| * |(32767 : ℚ)| ≤ 1 * |(32767 : ℚ)| := by
          apply mul_le_mul_of_nonneg_right habs.2 (abs_nonneg _)
      _ = ((32767 : Nat) : ℚ) := by norm_num
  obtain ⟨hlo1, hhi1⟩ := truncToInt_bound _ 32767 hb1
  obtain ⟨hlo2, hhi2⟩ := truncToInt_bound _ 32767 hb2
  refine ⟨?_, ?_, ?_, ?_⟩
  · simpa using hlo1
  · simpa using hhi1
  · simpa using hlo2
  · simpa using hhi2

/-- No int16 wrap occurs in the mixing conversion: every output sample of
`mixSamples` lies in `[-32767, 32767]`. -/
theorem mixSamples_output_bounded (mic sys : AudioData) (q : Int × Int)
    (hq : q ∈ mixSamples mic sys) :
    -32767 ≤ q.1 ∧ q.1 ≤ 32767 ∧ -32767 ≤ q.2 ∧ q.2 ≤ 32767 := by
  unfold mixSamples at hq
  exact rescale_stage_bounded _ q hq

/-- The mixing policy as the specification words it: common normalized
float range, mono duplicated to stereo, truncation to the shorter length,
weighted sum at 0.7/0.3, and a single proportional rescale factor
`1/peak` applied (instead of hard clipping) exactly when the peak
magnitude exceeds unity, before conversion back to int16. -/
def mixPolicySpec (mic sys : AudioData) : List (Int × Int) :=
  let micF := ensureStereo (normalize mic)
  let sysF := ensureStereo (normalize sys)
  let n := min micF.length sysF.length
  let mixed := (micF.take n).zipWith
    (fun m s => (7/10 * m.1 + 3/10 * s.1, 7/10 * m.2 + 3/10 * s.2)) (sysF.take n)
  let peak := peakAbs mixed
  let scale : ℚ := if 1 < peak then peak⁻¹ else 1
  mixed.map (fun p => (truncToInt (p.1 * scale * 32767), truncToInt (p.2 * scale * 32767)))

/-- The 5-second stereo white-noise placeholder
`np.random.randint(-1000, 1000, (5 * self.sample_rate, 2))`; `noise` is
the stream of draws from the random generator. -/
def fallbackNoise (sampleRate : Nat) (noise : Nat → Int) : List (Int × Int) :=
  (List.range (5 * sampleRate)).map fun i => (noise (2 * i), noise (2 * i + 1))

/-- `MacOSAudioCaptureService._mix_audio_files`: the full fallback chain.
Returns the content written to the output file together with the boolean
result. Every branch of the source body returns normally — the
`except` handler only matters for the final mixing branch, which with
well-formed inputs (guaranteed by the usability guards) does not raise —
so the function never propagates an exception into `stop_recording`. -/
def mix_audio_files (sampleRate : Nat) (micFile sysFile : Option WavFile)
    (noise : Nat → Int) : Option WavFile × Bool :=
  if fileUsable micFile = false then
    -- mic file missing or too small
    if fileUsable sysFile then
      -- byte-for-byte copy of the system file
      (sysFile, true)
    else
      -- both unusable: synthesize 5 seconds of noise
      (some ⟨sampleRate, .stereo (fallbackNoise sampleRate noise)⟩, true)
  else if fileUsable sysFile = false then
    -- system file missing or too small: byte-for-byte copy of the mic file
    (micFile, true)
  else
    match micFile, sysFile with
    | some micW, some sysW =>
      (some ⟨sampleRate, .stereo (mixSamples micW.data sysW.data)⟩, true)
    | _, _ => (none, false) -- unreachable: usable files are `some`

end Mixer

namespace Notifications

/-- The index-collecting pass of `status_update_callback`: the
`for i, connection in enumerate(...)` loop appends `i` to
`disconnected_clients` whenever `connection.send_json` raises, so the
collected indices are ascending. `α` is the connection type; `sendOk c`
is whether the send to `c` succeeded during this delivery. -/
def failedIndicesFrom {α : Type} (sendOk : α → Bool) : Nat → List α → List Nat
  | _, [] => []
  | i, c :: cs =>
    if sendOk c then failedIndicesFrom sendOk (i + 1) cs
    else i :: failedIndicesFrom sendOk (i + 1) cs

/-- The removal pass: `for idx in sorted(disconnected_clients,
reverse=True): del active_connections[meeting_id][idx]`. The collected
indices are ascending, so the descending sort is their reversal, and each
deletion is an in-bounds `eraseIdx` (the guarded `del` never hits its
`except`). -/
def pruneDisconnected {α : Type} (conns : List α) (sendOk : α → Bool) : List α :=
  ((failedIndicesFrom sendOk 0 conns).reverse).foldl List.eraseIdx conns

/-- One delivery of `status_update_callback` to the subscriber list of a
meeting: a send is attempted to every currently registered connection, in
order, and the list is then pruned of every connection whose send failed.
Returns `(attempted, remaining)`. -/
def status_update_callback {α : Type} (conns : List α) (sendOk : α → Bool) :
    List α × List α :=
  (conns, pruneDisconnected conns sendOk)

end Notifications

namespace Devices

/-- One device as enumerated by `sounddevice.query_devices()`: the fields
the selection logic reads. -/
structure SdDevice where
  name : String
  maxInputChannels : Nat
  maxOutputChannels : Nat
deriving Repr, DecidableEq

/-- Character-wise lowercasing (`name.lower()` on the ASCII device
names involved). -/
def lowerChars (s : String) : List Char := s.data.map Char.toLower

/-- Substring test (`term in name_lower` on Python strings), computed on
the character lists so that it evaluates by kernel reduction. -/
def containsToken (s pat : String) : Bool :=
  (List.range (s.data.length + 1)).any fun i =>
    pat.data.isPrefixOf ((lowerChars s).drop i)

/-- `device_info['is_virtual']`: the lowercased name contains one of the
virtual/loopback markers. -/
def isVirtualName (n : String) : Bool :=
  ["virtual", "loopback", "blackhole", "soundflower"].any
    (containsToken n)

/-- `device_info['is_bluetooth']`. -/
def isBluetoothName (n : String) : Bool :=
  ["bluetooth", "airpods", "wireless", "bt"].any (containsToken n)

/-- The macOS built-in microphone name test used both by
`MacOSAudioCaptureService.update_device_info` and `_record_microphone`. -/
def isBuiltinName (n : String) : Bool :=
  ["built-in", "macbook", "internal"].any (containsToken n)

/-- The device-scan loop of `AudioCaptureService.update_device_info`
restricted to its `system_audio_device` effect: every enumerated device
with input channels whose name classifies as virtual overwrites the
field, so the last such index wins. -/
def findSystemAudioDeviceFrom : Nat → List SdDevice → Option Nat
  | _, [] => none
  | i, d :: ds =>
    let later := findSystemAudioDeviceFrom (i + 1) ds
    match later with
    | some j => some j
    | none =>
      if 0 < d.maxInputChannels ∧ isVirtualName d.name then some i else none

/-- The cached device-selection state of `AudioCaptureService`. -/
structure CaptureState where
  selectedDevice : Option Nat
  systemAudioDevice : Option Nat
  systemAudioAvailable : Bool
deriving Repr, DecidableEq

/-- `AudioCaptureService.update_device_info` restricted to its selection
effects: recompute the system-audio device, then apply the documented
strategy — keep an already selected device; else the detected
system-audio (virtual) device; else the platform default input
(`sd.default.device[0]`); else the first enumerated device exposing
input channels. -/
def update_device_info (devices : List SdDevice) (defaultInput : Option Nat)
    (st : CaptureState) : CaptureState :=
  let sysDev := findSystemAudioDeviceFrom 0 devices
  let selected :=
    match st.selectedDevice with
    | some d => some d
    | none =>
      match sysDev with
      | some i => some i
      | none =>
        match defaultInput with
        | some i => some i
        | none => devices.findIdx? fun d => 0 < d.maxInputChannels
  { selectedDevice := selected
    systemAudioDevice := sysDev
    systemAudioAvailable := sysDev.isSome }

/-- The input-device list built by
`MacOSAudioCaptureService.update_device_info`: enumerated devices with
input channels, with string ids `str(i)`. -/
def macosInputDevicesFrom : Nat → List SdDevice → List (String × SdDevice)
  | _, [] => []
  | i, d :: ds =>
    if 0 < d.maxInputChannels then
      (toString i, d) :: macosInputDevicesFrom (i + 1) ds
    else macosInputDevicesFrom (i + 1) ds

/-- The selection effect of `MacOSAudioCaptureService.update_device_info`:
find the first input device whose name marks a built-in microphone and
make it the selection; else the first input device; else leave
`selected_input_device` unchanged. Note the previous selection is
overwritten whenever any input device exists. -/
def macos_update_device_info (devices : List SdDevice)
    (selected₀ : Option String) : Option String :=
  let inputs := macosInputDevicesFrom 0 devices
  match inputs.find? (fun p => isBuiltinName p.2.name) with
  | some p => some p.1
  | none =>
    match inputs with
    | [] => selected₀
    | p :: _ => some p.1

/-- The device choice of `MacOSAudioCaptureService._record_microphone`:
ignore the recording's configured device id entirely, scan
`sd.query_devices()` for the first input-capable device with a built-in
name, and fall back to the platform default input
(`sd.default.device[0]`). -/
def record_microphone_device (devices : List SdDevice)
    (defaultInput : Nat) : Nat :=
  match devices.findIdx? (fun d => isBuiltinName d.name ∧ 0 < d.maxInputChannels) with
  | some i => i
  | none => defaultInput

end Devices

/-! ## Theorems settling the claims -/

section Claims

open Transcriber AudioCapture Mixer Notifications Devices

/-- C1: a second `start_meeting` with the id of an already started meeting
fails with the conflict message "Meeting already in progress" and leaves
the registry — in particular every field of the first meeting's record —
exactly as it was. -/
theorem claim_C1_start_meeting_conflict
    (reg reg' : Registry) (meetingId title ok₁ title₂ : String)
    (ps ps₂ : List String) (dev dev₂ : Option String) (cap cap₂ : Bool)
    (env env₂ : StartEnv)
    (h : start_meeting reg meetingId title ps dev cap env = (true, ok₁, reg')) :
    start_meeting reg' meetingId title₂ ps₂ dev₂ cap₂ env₂
      = (false, "Meeting already in progress", reg') := by
  unfold start_meeting at h ⊢
  cases hmem : (reg.lookup meetingId).isSome with
  | true => simp [hmem] at h
  | false =>
    simp only [hmem, Bool.false_eq_true, if_false] at h
    match henv : env.audioStartResult with
    | (false, msg) =>
      rw [henv] at h
      simp at h
    | (true, msg) =>
      rw [henv] at h
      have hreg := congrArg (fun p => p.2.2) h
      simp only at hreg
      subst hreg
      simp [List.lookup]

/-- C2: `stop_meeting` on an unknown id fails with "Meeting not found" and
does not touch the registry; on a meeting whose status is not `recording`
it fails with a message naming the current status and also leaves the
registry unchanged. -/
theorem claim_C2_stop_meeting_invalid_state
    (reg : Registry) (meetingId : String) (env : StopEnv) :
    (reg.lookup meetingId = none →
      stop_meeting reg meetingId env = (false, "Meeting not found", reg))
    ∧ (∀ m, reg.lookup meetingId = some m → m.status ≠ "recording" →
      stop_meeting reg meetingId env =
        (false, "Meeting is not recording, current status: " ++ m.status, reg)) := by
  constructor
  · intro h
    unfold stop_meeting
    rw [h]
  · intro m hm hs
    unfold stop_meeting
    rw [hm]
    simp [hs]

/-- Witness for C1 at a concrete registry and environment. -/
theorem claim_C1_start_meeting_conflict_witness :
    start_meeting
      ((start_meeting [] "m1" "Weekly" ["ana"] none true ⟨5, (true, "ok")⟩).2.2)
      "m1" "Other" [] none false ⟨9, (true, "ok")⟩
      = (false, "Meeting already in progress",
        (start_meeting [] "m1" "Weekly" ["ana"] none true ⟨5, (true, "ok")⟩).2.2) :=
  claim_C1_start_meeting_conflict [] _ "m1" "Weekly" "Meeting started" "Other"
    ["ana"] [] none none true false ⟨5, (true, "ok")⟩ ⟨9, (true, "ok")⟩ rfl

/-- A concrete meeting record that has already moved to `processing`,
used by concrete instantiations below. -/
def processingMeeting : Meeting :=
  { id := "m1", title := "T", startTime := 0, status := "processing",
    participants := [], audioFile := none, transcriptPath := none,
    summaryPath := none, deviceId := none, usingSystemAudio := true,
    endTime := some 10, durationSeconds := some 10, transcriptSegments := [],
    currentTranscript := none, summaryContent := none }

/-- Witness for C2 at a concrete registry: unknown id, and a meeting
already in `processing`. -/
theorem claim_C2_stop_meeting_invalid_state_witness :
    stop_meeting [] "ghost" ⟨7, (true, "ok")⟩ = (false, "Meeting not found", [])
    ∧ stop_meeting [("m1", processingMeeting)] "m1" ⟨7, (true, "ok")⟩
      = (false, "Meeting is not recording, current status: processing",
          [("m1", processingMeeting)]) :=
  ⟨(claim_C2_stop_meeting_invalid_state [] "ghost" ⟨7, (true, "ok")⟩).1 rfl,
    (claim_C2_stop_meeting_invalid_state [("m1", processingMeeting)] "m1"
        ⟨7, (true, "ok")⟩).2 processingMeeting rfl (by decide)⟩

/-- C10: stopping a recording meeting stores
`duration_seconds = (end_time - start_time).seconds`, i.e. the elapsed
seconds modulo 86400 with whole days discarded; the finalize pipeline
interpolates exactly this stored value into both artifact headers; and
for any elapsed time of at least 24 hours the stored value understates
the true elapsed seconds. -/
theorem claim_C10_duration_seconds_wraps
    (reg : Registry) (meetingId : String) (env : StopEnv) (m : Meeting)
    (hm : reg.lookup meetingId = some m) (hst : m.status = "recording")
    (hok : env.audioStopResult = (true, "Recording stopped")) :
    ∃ m', stop_meeting reg meetingId env
        = (true, "Meeting stopped, processing started", setEntry reg meetingId m')
      ∧ m'.durationSeconds = some ((env.now - m.startTime) % 86400)
      ∧ (∀ fname penv a,
          (process_meeting m' fname penv).transcriptArtifact = some a →
            a.durationSeconds = some ((env.now - m.startTime) % 86400))
      ∧ (∀ fname penv a,
          (process_meeting m' fname penv).summaryArtifact = some a →
            a.durationSeconds = some ((env.now - m.startTime) % 86400))
      ∧ (86400 ≤ env.now - m.startTime →
          (env.now - m.startTime) % 86400 < env.now - m.startTime) := by
  refine ⟨(
    { m with
      endTime := some env.now
      durationSeconds := some ((env.now - m.startTime) % 86400)
      status := "processing" }), ?_, rfl, ?_, ?_, ?_⟩
  · unfold stop_meeting
    rw [hm, hok]
    simp [hst]
  · intro fname penv a ha
    unfold process_meeting at ha
    repeat' split at ha
    all_goals simp_all
    all_goals (subst ha; rfl)
  · intro fname penv a ha
    unfold process_meeting at ha
    repeat' split at ha
    all_goals simp_all
    all_goals (subst ha; rfl)
  · intro hday
    exact lt_of_lt_of_le (Nat.mod_lt _ (by norm_num)) hday

/-- A concrete meeting currently recording, for witnesses. -/
def recordingMeeting : Meeting :=
  { id := "m2", title := "AllHands", startTime := 100, status := "recording",
    participants := ["bo"], audioFile := none, transcriptPath := none,
    summaryPath := none, deviceId := none, usingSystemAudio := true,
    endTime := none, durationSeconds := none, transcriptSegments := [],
    currentTranscript := none, summaryContent := none }

/-- Witness for C10: a meeting stopped 1 day and 5 seconds after it
started stores a wrapped duration. -/
theorem claim_C10_duration_seconds_wraps_witness :
    ∃ m', stop_meeting [("m2", recordingMeeting)] "m2"
          ⟨86505, (true, "Recording stopped")⟩
        = (true, "Meeting stopped, processing started",
            setEntry [("m2", recordingMeeting)] "m2" m')
      ∧ m'.durationSeconds = some ((86505 - recordingMeeting.startTime) % 86400)
      ∧ (∀ fname penv a,
          (process_meeting m' fname penv).transcriptArtifact = some a →
            a.durationSeconds = some ((86505 - recordingMeeting.startTime) % 86400))
      ∧ (∀ fname penv a,
          (process_meeting m' fname penv).summaryArtifact = some a →
            a.durationSeconds = some ((86505 - recordingMeeting.startTime) % 86400))
      ∧ (86400 ≤ 86505 - recordingMeeting.startTime →
          (86505 - recordingMeeting.startTime) % 86400
            < 86505 - recordingMeeting.startTime) :=
  claim_C10_duration_seconds_wraps [("m2", recordingMeeting)] "m2"
    ⟨86505, (true, "Recording stopped")⟩ recordingMeeting rfl rfl rfl

/-- C3: reading chunks since an index. With the index at or past the
current chunk-list length both implementations report success with no new
data and return the index unchanged; with an in-range index both return
exactly the concatenation, in append order, of the chunks at positions
`idx .. length - 1` and advance the returned index to the pre-call
length; in all cases the returned index never decreases. The hypothesis
that every buffered chunk is non-empty is the invariant maintained by the
capture loops, which only append full `stream.read(buffer_size)` buffers
(`buffer_size = int(sample_rate * 0.2) > 0` frames). -/
theorem claim_C3_read_since (sr : Nat) (chunks : List Chunk) (idx : Nat)
    (hne : ∀ c ∈ chunks, c ≠ []) :
    (chunks.length ≤ idx →
      get_chunk_since_index (some chunks) idx = (true, none, idx)
      ∧ macos_get_chunk_since_index sr (some chunks) idx
          = (true, none, (idx : Int)))
    ∧ (idx < chunks.length →
      get_chunk_since_index (some chunks) idx
        = (true, some (chunks.drop idx).flatten, chunks.length)
      ∧ macos_get_chunk_since_index sr (some chunks) idx
        = (true, some (chunks.drop idx).flatten, (chunks.length : Int)))
    ∧ idx ≤ (get_chunk_since_index (some chunks) idx).2.2
    ∧ (idx : Int) ≤ (macos_get_chunk_since_index sr (some chunks) idx).2.2 := by
  have htoNat : ((idx : Int)).toNat = idx := by omega
  have hdropne : idx < chunks.length → (chunks.drop idx).isEmpty = false := by
    intro hlt
    rw [List.isEmpty_eq_false]
    intro hnil
    rw [List.drop_eq_nil_iff] at hnil
    omega
  have hA : chunks.length ≤ idx →
      get_chunk_since_index (some chunks) idx = (true, none, idx)
      ∧ macos_get_chunk_since_index sr (some chunks) idx
        = (true, none, (idx : Int)) := by
    intro hge
    constructor
    · unfold get_chunk_since_index
      simp [hge]
    · unfold macos_get_chunk_since_index
      rw [htoNat]
      simp [hge]
  have hB : idx < chunks.length →
      get_chunk_since_index (some chunks) idx
        = (true, some (chunks.drop idx).flatten, chunks.length)
      ∧ macos_get_chunk_since_index sr (some chunks) idx
        = (true, some (chunks.drop idx).flatten, (chunks.length : Int)) := by
    intro hlt
    have hnotle : ¬ chunks.length ≤ idx := by omega
    have hfilter : (chunks.drop idx).filter (fun c => !c.isEmpty)
        = chunks.drop idx := by
      rw [List.filter_eq_self]
      intro c hc
      rw [Bool.not_eq_eq_eq_not, Bool.not_true, List.isEmpty_eq_false]
      exact hne c (List.mem_of_mem_drop hc)
    constructor
    · unfold get_chunk_since_index
      simp [hnotle, hdropne hlt]
    · unfold macos_get_chunk_since_index
      rw [htoNat]
      simp only [hnotle, if_false, Bool.false_eq_true, hfilter,
        hdropne hlt, Prod.mk.injEq, List.length_drop]
      refine ⟨trivial, trivial, ?_⟩
      omega
  refine ⟨hA, hB, ?_, ?_⟩
  · rcases le_or_lt chunks.length idx with h | h
    · rw [(hA h).1]
    · rw [(hB h).1]
      exact Nat.le_of_lt h
  · rcases le_or_lt chunks.length idx with h | h
    · rw [(hA h).2]
    · rw [(hB h).2]
      show (idx : Int) ≤ (chunks.length : Int)
      omega

/-- Witness for C3 at a concrete buffer: two non-empty chunks, read from
index 1 (in range) and index 5 (past the end). -/
theorem claim_C3_read_since_witness :
    ((([[1], [2, 3]] : List Chunk).length ≤ 5 →
      get_chunk_since_index (some [[1], [2, 3]]) 5 = (true, none, 5)
      ∧ macos_get_chunk_since_index 16000 (some [[1], [2, 3]]) 5
          = (true, none, ((5 : Nat) : Int)))
    ∧ (5 < ([[1], [2, 3]] : List Chunk).length →
      get_chunk_since_index (some [[1], [2, 3]]) 5
        = (true, some (([[1], [2, 3]] : List Chunk).drop 5).flatten, 2)
      ∧ macos_get_chunk_since_index 16000 (some [[1], [2, 3]]) 5
        = (true, some (([[1], [2, 3]] : List Chunk).drop 5).flatten, (2 : Int)))
    ∧ 5 ≤ (get_chunk_since_index (some [[1], [2, 3]]) 5).2.2
    ∧ (5 : Int) ≤ (macos_get_chunk_since_index 16000 (some [[1], [2, 3]]) 5).2.2)
    ∧ ((([[1], [2, 3]] : List Chunk).length ≤ 1 →
      get_chunk_since_index (some [[1], [2, 3]]) 1 = (true, none, 1)
      ∧ macos_get_chunk_since_index 16000 (some [[1], [2, 3]]) 1
          = (true, none, ((1 : Nat) : Int)))
    ∧ (1 < ([[1], [2, 3]] : List Chunk).length →
      get_chunk_since_index (some [[1], [2, 3]]) 1
        = (true, some (([[1], [2, 3]] : List Chunk).drop 1).flatten, 2)
      ∧ macos_get_chunk_since_index 16000 (some [[1], [2, 3]]) 1
        = (true, some (([[1], [2, 3]] : List Chunk).drop 1).flatten, (2 : Int)))
    ∧ 1 ≤ (get_chunk_since_index (some [[1], [2, 3]]) 1).2.2
    ∧ (1 : Int) ≤ (macos_get_chunk_since_index 16000 (some [[1], [2, 3]]) 1).2.2) :=
  ⟨claim_C3_read_since 16000 [[1], [2, 3]] 5 (by decide),
    claim_C3_read_since 16000 [[1], [2, 3]] 1 (by decide)⟩

/-- The two final stages of the mixing arithmetic — the conditional
in-place division by the peak followed by the int16 conversion — equal a
single pass applying the scale factor `1/peak` (or `1`) per sample. -/
theorem rescale_map_eq (mixed : List (ℚ × ℚ)) (peak : ℚ) :
    (if 1 < peak then mixed.map (fun p => (p.1 / peak, p.2 / peak)) else mixed).map
        (fun p => (truncToInt (p.1 * 32767), truncToInt (p.2 * 32767)))
      = mixed.map (fun p =>
          (truncToInt (p.1 * (if 1 < peak then peak⁻¹ else 1) * 32767),
            truncToInt (p.2 * (if 1 < peak then peak⁻¹ else 1) * 32767))) := by
  by_cases h : 1 < peak
  · simp only [h, if_true, List.map_map]
    apply List.map_congr_left
    intro p _
    simp [Function.comp, div_eq_mul_inv]
  · simp only [h, if_false]
    apply List.map_congr_left
    intro p _
    simp

/-- The sequential mixing code equals the one-pass specification policy. -/
theorem mixSamples_eq_mixPolicySpec (mic sys : AudioData) :
    mixSamples mic sys = mixPolicySpec mic sys := by
  unfold mixSamples mixPolicySpec
  exact rescale_map_eq _ _

/-- C4: the mixing fallback chain. Mixing always reports success (it
never propagates a fatal error into the stop sequence); a missing or
undersized system-audio file with a usable microphone file makes the
output a byte-for-byte copy of the microphone file; and when both inputs
are missing or under the 1000-byte threshold the output is the
synthesized noise placeholder — 5 seconds of stereo frames, in
particular non-empty — and the call still reports success. -/
theorem claim_C4_mix_fallback_chain (sr : Nat) (hsr : 0 < sr)
    (micFile sysFile : Option WavFile) (noise : Nat → Int) :
    (mix_audio_files sr micFile sysFile noise).2 = true
    ∧ (fileUsable micFile = true → fileUsable sysFile = false →
        mix_audio_files sr micFile sysFile noise = (micFile, true))
    ∧ (fileUsable micFile = false → fileUsable sysFile = false →
        mix_audio_files sr micFile sysFile noise
          = (some ⟨sr, .stereo (fallbackNoise sr noise)⟩, true)
        ∧ (fallbackNoise sr noise).length = 5 * sr
        ∧ fallbackNoise sr noise ≠ []) := by
  refine ⟨?_, ?_, ?_⟩
  · unfold mix_audio_files
    cases hm : fileUsable micFile with
    | false => cases hs : fileUsable sysFile <;> simp [hs]
    | true =>
      cases hs : fileUsable sysFile with
      | false => simp [hs]
      | true =>
        cases micFile with
        | none => simp [fileUsable] at hm
        | some micW =>
          cases sysFile with
          | none => simp [fileUsable] at hs
          | some sysW => simp [hs]
  · intro hm hs
    unfold mix_audio_files
    simp [hm, hs]
  · intro hm hs
    have hlen : (fallbackNoise sr noise).length = 5 * sr := by
      simp [fallbackNoise]
    refine ⟨?_, hlen, ?_⟩
    · unfold mix_audio_files
      simp [hm, hs]
    · intro hnil
      rw [hnil] at hlen
      simp at hlen
      omega

/-- A usable concrete microphone file: 478 mono samples, byte size
exactly at the 1000-byte threshold. -/
def micWitnessFile : WavFile := ⟨16000, .mono (List.replicate 478 7)⟩

/-- A usable concrete system-audio file: 250 stereo frames. -/
def sysWitnessFile : WavFile := ⟨16000, .stereo (List.replicate 250 (3, 3))⟩

set_option maxRecDepth 8192 in
/-- Witness for C4: a usable mic with missing system audio copies the mic
file; two missing inputs produce the non-empty noise placeholder. -/
theorem claim_C4_mix_fallback_chain_witness :
    (mix_audio_files 16000 (some micWitnessFile) none (fun _ => 2)).2 = true
    ∧ mix_audio_files 16000 (some micWitnessFile) none (fun _ => 2)
        = (some micWitnessFile, true)
    ∧ (mix_audio_files 16000 none none (fun _ => 2)
          = (some ⟨16000, .stereo (fallbackNoise 16000 (fun _ => 2))⟩, true)
        ∧ (fallbackNoise 16000 (fun _ => 2)).length = 5 * 16000
        ∧ fallbackNoise 16000 (fun _ => 2) ≠ []) :=
  ⟨(claim_C4_mix_fallback_chain 16000 (by decide) (some micWitnessFile) none
      (fun _ => 2)).1,
    (claim_C4_mix_fallback_chain 16000 (by decide) (some micWitnessFile) none
      (fun _ => 2)).2.1 (by decide) rfl,
    (claim_C4_mix_fallback_chain 16000 (by decide) none none
      (fun _ => 2)).2.2 rfl rfl⟩

/-- C5: on two usable input files the mix output is exactly the stereo
buffer obtained by normalizing both inputs to floats in [-1, 1],
duplicating mono to stereo, truncating to the shorter length, forming
`0.7 * mic + 0.3 * sys` per sample, dividing the whole buffer by its peak
magnitude exactly when that peak exceeds 1 (a proportional rescale, no
hard clipping), and converting back to int16. -/
theorem claim_C5_mix_policy (sr : Nat) (micW sysW : WavFile) (noise : Nat → Int)
    (hm : fileUsable (some micW) = true) (hs : fileUsable (some sysW) = true) :
    mix_audio_files sr (some micW) (some sysW) noise
      = (some ⟨sr, .stereo (mixSamples micW.data sysW.data)⟩, true)
    ∧ mixSamples micW.data sysW.data = mixPolicySpec micW.data sysW.data := by
  refine ⟨?_, mixSamples_eq_mixPolicySpec _ _⟩
  unfold mix_audio_files
  simp [hm, hs]

set_option maxRecDepth 8192 in
/-- Witness for C5 at two concrete usable files. -/
theorem claim_C5_mix_policy_witness :
    mix_audio_files 16000 (some micWitnessFile) (some sysWitnessFile) (fun _ => 2)
      = (some ⟨16000, .stereo (mixSamples micWitnessFile.data sysWitnessFile.data)⟩,
          true)
    ∧ mixSamples micWitnessFile.data sysWitnessFile.data
        = mixPolicySpec micWitnessFile.data sysWitnessFile.data :=
  claim_C5_mix_policy 16000 micWitnessFile sysWitnessFile (fun _ => 2)
    (by decide) (by decide)

/-- Counterexample to C6 as stated: run the composed finalize pipeline on
a concrete meeting with every other step succeeding while the
speech-to-text engine fails. Because `_transcribe_audio` catches the
engine exception internally and returns `"Transcription failed: ..."` as
ordinary transcript text, the pipeline does not halt: the meeting ends in
`completed`, not `error`, the placeholder `current_transcript` is never
set, and the failure text is written into the transcript artifact. -/
theorem claim_C6_transcription_failure_counterexample :
    (run_pipeline processingMeeting "audio.wav" (true, some [1, 2], "ok")
        true true (.error "engine crashed") (some "a summary") true).meeting.status
      = "completed"
    ∧ (run_pipeline processingMeeting "audio.wav" (true, some [1, 2], "ok")
        true true (.error "engine crashed") (some "a summary") true).meeting.status
      ≠ "error"
    ∧ (run_pipeline processingMeeting "audio.wav" (true, some [1, 2], "ok")
        true true (.error "engine crashed") (some "a summary") true).meeting.currentTranscript
      ≠ some "Transcription failed"
    ∧ (run_pipeline processingMeeting "audio.wav" (true, some [1, 2], "ok")
        true true (.error "engine crashed") (some "a summary") true).transcriptArtifact.map
          Artifact.body
      = some "Transcription failed: engine crashed" := by
  refine ⟨rfl, ?_, ?_, rfl⟩ <;> decide

/-- C6 as amended: a speech-to-text engine failure is absorbed inside
`_transcribe_audio`, which returns the text `"Transcription failed: <e>"`
with no segments; the pipeline then continues and (when the remaining
steps succeed) the meeting reaches `completed` with that text as its
final transcript. The `error`-with-placeholder branch of
`_process_meeting` fires only if the transcription statement itself
raises — which the helper's blanket handler prevents for engine
exceptions — and in that case it does halt the pipeline with status
`error` and placeholder transcript `"Transcription failed"`, leaving the
artifact paths unwritten. -/
theorem claim_C6_transcription_failure_amended
    (m : Meeting) (fname msg e : String) (samples : List Int)
    (hsamples : samples ≠ []) (summarize : Option String) :
    (transcribe_audio true (.error e) = ("Transcription failed: " ++ e, []))
    ∧ ((run_pipeline m fname (true, some samples, msg) true true (.error e)
          summarize true).meeting.status = "completed"
      ∧ (run_pipeline m fname (true, some samples, msg) true true (.error e)
          summarize true).transcriptArtifact.map Artifact.body
        = some ("Transcription failed: " ++ e)
      ∧ (run_pipeline m fname (true, some samples, msg) true true (.error e)
          summarize true).meeting.transcriptSegments = [])
    ∧ (∀ penv : ProcessEnv, penv.audioData = (true, some samples, msg) →
        penv.audioSaveOk = true → penv.modelLoadOk = true →
        penv.transcribeCall = .error e →
        process_meeting m fname penv
          = ⟨{ m with
                audioFile := some fname
                status := "error"
                transcriptSegments := []
                currentTranscript := some "Transcription failed" }, none, none⟩) := by
  have hempty : samples.isEmpty = false := by
    rw [List.isEmpty_eq_false]
    exact hsamples
  refine ⟨rfl, ?_, ?_⟩
  · unfold run_pipeline process_meeting transcribe_audio
    simp [hempty]
  · intro penv h1 h2 h3 h4
    unfold process_meeting
    rw [h1, h2, h3, h4]
    simp [hempty]

/-- Witness for the amended C6 at concrete inputs. -/
theorem claim_C6_transcription_failure_amended_witness :
    (transcribe_audio true (.error "boom")
        = ("Transcription failed: " ++ "boom", []))
    ∧ ((run_pipeline processingMeeting "f.wav" (true, some [5], "ok") true true
          (.error "boom") none true).meeting.status = "completed"
      ∧ (run_pipeline processingMeeting "f.wav" (true, some [5], "ok") true true
          (.error "boom") none true).transcriptArtifact.map Artifact.body
        = some ("Transcription failed: " ++ "boom")
      ∧ (run_pipeline processingMeeting "f.wav" (true, some [5], "ok") true true
          (.error "boom") none true).meeting.transcriptSegments = [])
    ∧ (∀ penv : ProcessEnv, penv.audioData = (true, some [5], "ok") →
        penv.audioSaveOk = true → penv.modelLoadOk = true →
        penv.transcribeCall = .error "boom" →
        process_meeting processingMeeting "f.wav" penv
          = ⟨{ processingMeeting with
                audioFile := some "f.wav"
                status := "error"
                transcriptSegments := []
                currentTranscript := some "Transcription failed" }, none, none⟩) :=
  claim_C6_transcription_failure_amended processingMeeting "f.wav" "ok" "boom"
    [5] (by decide) none

/-- C7: when the pipeline reaches summarization and the summarization
engine fails (`_summarize_text` returns `None`), the meeting still
reaches `completed`, its stored `summary_content` is the fixed fallback
string, and the summary artifact body is that same fallback string. -/
theorem claim_C7_summary_fallback
    (m : Meeting) (fname msg transcript : String) (samples : List Int)
    (hsamples : samples ≠ []) (segments : List Segment) :
    (process_meeting m fname
        ⟨(true, some samples, msg), true, true, .ok (transcript, segments),
          none, true⟩).meeting.status = "completed"
    ∧ (process_meeting m fname
        ⟨(true, some samples, msg), true, true, .ok (transcript, segments),
          none, true⟩).meeting.summaryContent = some summaryFallback
    ∧ (process_meeting m fname
        ⟨(true, some samples, msg), true, true, .ok (transcript, segments),
          none, true⟩).summaryArtifact.map Artifact.body = some summaryFallback := by
  have hempty : samples.isEmpty = false := by
    rw [List.isEmpty_eq_false]
    exact hsamples
  unfold process_meeting
  simp [hempty, summarize_text]

/-- Witness for C7 at a concrete meeting and environment. -/
theorem claim_C7_summary_fallback_witness :
    (process_meeting processingMeeting "f.wav"
        ⟨(true, some [5], "ok"), true, true, .ok ("hello ", [⟨"hello", 0, 1⟩]),
          none, true⟩).meeting.status = "completed"
    ∧ (process_meeting processingMeeting "f.wav"
        ⟨(true, some [5], "ok"), true, true, .ok ("hello ", [⟨"hello", 0, 1⟩]),
          none, true⟩).meeting.summaryContent = some summaryFallback
    ∧ (process_meeting processingMeeting "f.wav"
        ⟨(true, some [5], "ok"), true, true, .ok ("hello ", [⟨"hello", 0, 1⟩]),
          none, true⟩).summaryArtifact.map Artifact.body = some summaryFallback :=
  claim_C7_summary_fallback processingMeeting "f.wav" "ok" "hello " [5]
    (by decide) [⟨"hello", 0, 1⟩]

/-- Shifting the enumeration start of the failed-index collector adds a
constant to every collected index. -/
theorem failedIndicesFrom_shift {α : Type} (sendOk : α → Bool) (cs : List α)
    (n : Nat) :
    failedIndicesFrom sendOk n cs
      = (failedIndicesFrom sendOk 0 cs).map (· + n) := by
  induction cs generalizing n with
  | nil => simp [failedIndicesFrom]
  | cons c cs ih =>
    by_cases h : sendOk c
    · simp only [failedIndicesFrom, h, if_true]
      rw [ih (n + 1), ih 1, List.map_map]
      apply List.map_congr_left
      intro x _
      simp [Function.comp]
      omega
    · simp only [failedIndicesFrom, h, Bool.false_eq_true, if_false,
        List.map_cons, Nat.zero_add]
      rw [ih (n + 1), ih 1, List.map_map]
      simp only [List.cons.injEq, Nat.zero_add, true_and]
      apply List.map_congr_left
      intro x _
      simp [Function.comp]
      omega

/-- Folding `eraseIdx` over indices that are all shifted by one leaves
the head of the list untouched. -/
theorem foldl_eraseIdx_map_succ {α : Type} (idxs : List Nat) (c : α)
    (cs : List α) :
    (idxs.map (· + 1)).foldl List.eraseIdx (c :: cs)
      = c :: idxs.foldl List.eraseIdx cs := by
  induction idxs generalizing cs with
  | nil => rfl
  | cons i rest ih =>
    simp only [List.map_cons, List.foldl_cons, List.eraseIdx_cons_succ]
    exact ih _

/-- The descending-index deletion pass of `status_update_callback` keeps
exactly the connections whose send succeeded, in their original order. -/
theorem pruneDisconnected_eq_filter {α : Type} (conns : List α)
    (sendOk : α → Bool) :
    pruneDisconnected conns sendOk = conns.filter sendOk := by
  induction conns with
  | nil => rfl
  | cons c cs ih =>
    unfold pruneDisconnected at ih ⊢
    by_cases h : sendOk c
    · simp only [failedIndicesFrom, h, if_true]
      rw [failedIndicesFrom_shift sendOk cs 1, ← List.map_reverse,
        foldl_eraseIdx_map_succ, ih]
      simp [List.filter_cons, h]
    · simp only [failedIndicesFrom, h, Bool.false_eq_true, if_false,
        List.reverse_cons, List.foldl_append]
      rw [failedIndicesFrom_shift sendOk cs 1, ← List.map_reverse,
        foldl_eraseIdx_map_succ]
      simp only [List.foldl_cons, List.eraseIdx_cons_zero, List.foldl_nil]
      rw [ih]
      simp [List.filter_cons, h]

/-- C8: during one status-update delivery every registered subscriber
gets a send attempt; a subscriber whose send fails is removed from the
meeting's list before the next delivery and is not among the recipients
of the following delivery, while every subscriber whose send succeeded
stays registered and is attempted again on the following delivery. -/
theorem claim_C8_subscriber_pruning {α : Type} (conns : List α)
    (sendOk₁ sendOk₂ : α → Bool) (c : α) (hc : c ∈ conns) :
    ((status_update_callback conns sendOk₁).1 = conns)
    ∧ (sendOk₁ c = false →
        c ∉ (status_update_callback conns sendOk₁).2
        ∧ c ∉ (status_update_callback
            (status_update_callback conns sendOk₁).2 sendOk₂).1)
    ∧ (sendOk₁ c = true →
        c ∈ (status_update_callback conns sendOk₁).2
        ∧ c ∈ (status_update_callback
            (status_update_callback conns sendOk₁).2 sendOk₂).1) := by
  have hfilter : (status_update_callback conns sendOk₁).2
      = conns.filter sendOk₁ := pruneDisconnected_eq_filter conns sendOk₁
  refine ⟨rfl, ?_, ?_⟩
  · intro hfail
    have hnot : c ∉ conns.filter sendOk₁ := by
      intro hmem
      rw [List.mem_filter] at hmem
      rw [hfail] at hmem
      exact Bool.false_ne_true hmem.2
    exact ⟨hfilter ▸ hnot, hfilter ▸ hnot⟩
  · intro hok
    have hmem : c ∈ conns.filter sendOk₁ :=
      List.mem_filter.mpr ⟨hc, hok⟩
    exact ⟨hfilter ▸ hmem, hfilter ▸ hmem⟩

/-- Witness for C8: three concrete subscribers, the middle one failing
its send. -/
theorem claim_C8_subscriber_pruning_witness :
    ((status_update_callback [10, 20, 30] (fun n => n ≠ 20)).1 = [10, 20, 30])
    ∧ (((fun n => decide (n ≠ 20)) 20) = false →
        20 ∉ (status_update_callback [10, 20, 30] (fun n => n ≠ 20)).2
        ∧ 20 ∉ (status_update_callback
            (status_update_callback [10, 20, 30] (fun n => n ≠ 20)).2
            (fun _ => true)).1)
    ∧ (((fun n => decide (n ≠ 20)) 20) = true →
        20 ∈ (status_update_callback [10, 20, 30] (fun n => n ≠ 20)).2
        ∧ 20 ∈ (status_update_callback
            (status_update_callback [10, 20, 30] (fun n => n ≠ 20)).2
            (fun _ => true)).1) :=
  claim_C8_subscriber_pruning [10, 20, 30] (fun n => decide (n ≠ 20))
    (fun _ => true) 20 (by decide)

/-- Any index produced by the system-audio scan points at an enumerated
device that is input-capable and classified virtual. -/
theorem findSystemAudioDeviceFrom_spec (devices : List SdDevice) (n j : Nat)
    (h : findSystemAudioDeviceFrom n devices = some j) :
    n ≤ j ∧ ∃ d, devices[j - n]? = some d
      ∧ isVirtualName d.name = true ∧ 0 < d.maxInputChannels := by
  induction devices generalizing n with
  | nil => simp [findSystemAudioDeviceFrom] at h
  | cons d ds ih =>
    unfold findSystemAudioDeviceFrom at h
    cases hl : findSystemAudioDeviceFrom (n + 1) ds with
    | some j' =>
      rw [hl] at h
      simp only [Option.some.injEq] at h
      subst h
      obtain ⟨hle, d', hd', hv, hc⟩ := ih (n + 1) hl
      refine ⟨by omega, d', ?_, hv, hc⟩
      have hidx : j' - n = (j' - (n + 1)) + 1 := by omega
      rw [hidx, List.getElem?_cons_succ]
      exact hd'
    | none =>
      rw [hl] at h
      by_cases hcond : 0 < d.maxInputChannels ∧ isVirtualName d.name
      · rw [if_pos hcond] at h
        simp only [Option.some.injEq] at h
        subst h
        exact ⟨le_refl n, d, by simp, by simpa using hcond.2, hcond.1⟩
      · rw [if_neg hcond] at h
        exact absurd h (by simp)

/-- Characterization of `List.findIdx?`: a found index points at the
first element satisfying the predicate. -/
theorem findIdx?_found {α : Type} (p : α → Bool) (l : List α) (s j : Nat)
    (h : l.findIdx? p s = some j) :
    s ≤ j ∧ ∃ d, l[j - s]? = some d ∧ p d = true
      ∧ ∀ k, k < j - s → ∀ dk, l[k]? = some dk → p dk = false := by
  induction l generalizing s with
  | nil => simp [List.findIdx?] at h
  | cons a as ih =>
    rw [List.findIdx?_cons] at h
    by_cases hp : p a = true
    · rw [if_pos hp] at h
      simp only [Option.some.injEq] at h
      subst h
      exact ⟨le_refl s, a, by simp, hp, by omega⟩
    · rw [if_neg hp] at h
      obtain ⟨hle, d, hd, hpd, hfirst⟩ := ih (s + 1) h
      refine ⟨by omega, d, ?_, hpd, ?_⟩
      · have hidx : j - s = (j - (s + 1)) + 1 := by omega
        rw [hidx, List.getElem?_cons_succ]
        exact hd
      · intro k hk dk hdk
        cases k with
        | zero =>
          simp only [List.getElem?_cons_zero, Option.some.injEq] at hdk
          subst hdk
          exact Bool.not_eq_true _ ▸ eq_false_of_ne_true hp
        | succ k' =>
          rw [List.getElem?_cons_succ] at hdk
          exact hfirst k' (by omega) dk hdk

/-- A virtual loopback input device and a built-in microphone, in the
enumeration order that exhibits the macOS selection behaviour. -/
def blackholeDevice : SdDevice := ⟨"BlackHole 2ch", 2, 2⟩

/-- The built-in microphone device of the counterexample inventory. -/
def builtinMicDevice : SdDevice := ⟨"MacBook Pro Microphone", 1, 0⟩

/-- Counterexample to C9 as stated: on the macOS capture service — the
implementation `AudioManager` actually instantiates — a refresh with
device 0 previously explicitly selected (the virtual/loopback BlackHole
input) moves the selection to device 1, the built-in microphone, so
neither the "previously explicitly selected" priority nor the
"virtual/loopback" priority holds; the microphone recording thread makes
the same built-in-first choice. -/
theorem claim_C9_device_priority_counterexample :
    macos_update_device_info [blackholeDevice, builtinMicDevice] (some "0")
      = some "1"
    ∧ (some "1" : Option String) ≠ some "0"
    ∧ macos_update_device_info [blackholeDevice, builtinMicDevice] none
      = some "1"
    ∧ isVirtualName blackholeDevice.name = true
    ∧ 0 < blackholeDevice.maxInputChannels
    ∧ record_microphone_device [blackholeDevice, builtinMicDevice] 0 = 1 := by
  refine ⟨?_, ?_, ?_, ?_, ?_, ?_⟩ <;> decide

/-- C9 as amended. The generic `AudioCaptureService.update_device_info`
implements the claimed priority chain: (1) a previously selected device
is kept; (2) otherwise a detected virtual/loopback input device is
selected — and any selection made this way really is an enumerated
input-capable device with a virtual name; (3) otherwise the platform
default input; (4) otherwise the first enumerated device exposing input
channels, and any selection made this way is the input-capable device of
least index. The macOS service actually used at runtime instead
overwrites the cached selection on every refresh whenever any input
device exists (preferring a built-in-named microphone, else the first
input device), keeping the previous selection only when there are no
input devices; and its microphone thread picks the first
built-in-named input device, else the platform default input, ignoring
the cached selection entirely. -/
theorem claim_C9_device_priority_amended (devices : List SdDevice)
    (defaultInput : Option Nat) (st : CaptureState) (sel₀ : Option String)
    (dflt : Nat) :
    (∀ d, st.selectedDevice = some d →
      (update_device_info devices defaultInput st).selectedDevice = some d)
    ∧ (∀ i, st.selectedDevice = none →
        findSystemAudioDeviceFrom 0 devices = some i →
        (update_device_info devices defaultInput st).selectedDevice = some i
        ∧ ∃ d, devices[i]? = some d ∧ isVirtualName d.name = true
            ∧ 0 < d.maxInputChannels)
    ∧ (∀ i, st.selectedDevice = none →
        findSystemAudioDeviceFrom 0 devices = none → defaultInput = some i →
        (update_device_info devices defaultInput st).selectedDevice = some i)
    ∧ (∀ i, st.selectedDevice = none →
        findSystemAudioDeviceFrom 0 devices = none → defaultInput = none →
        (update_device_info devices defaultInput st).selectedDevice = some i →
        ∃ d, devices[i]? = some d ∧ 0 < d.maxInputChannels
          ∧ ∀ k, k < i → ∀ dk, devices[k]? = some dk →
              dk.maxInputChannels = 0)
    ∧ (macosInputDevicesFrom 0 devices ≠ [] →
        macos_update_device_info devices sel₀
          = macos_update_device_info devices none)
    ∧ (macosInputDevicesFrom 0 devices = [] →
        macos_update_device_info devices sel₀ = sel₀)
    ∧ (∀ i, devices.findIdx?
          (fun d => isBuiltinName d.name ∧ 0 < d.maxInputChannels) = some i →
        record_microphone_device devices dflt = i)
    ∧ (devices.findIdx?
          (fun d => isBuiltinName d.name ∧ 0 < d.maxInputChannels) = none →
        record_microphone_device devices dflt = dflt) := by
  refine ⟨?_, ?_, ?_, ?_, ?_, ?_, ?_, ?_⟩
  · intro d hd
    unfold update_device_info
    rw [hd]
  · intro i hnone hsys
    constructor
    · unfold update_device_info
      rw [hnone, hsys]
    · have hspec := findSystemAudioDeviceFrom_spec devices 0 i hsys
      simpa using hspec.2
  · intro i hnone hsys hdef
    unfold update_device_info
    rw [hnone, hsys, hdef]
  · intro i hnone hsys hdef hsel
    unfold update_device_info at hsel
    rw [hnone, hsys, hdef] at hsel
    simp only at hsel
    obtain ⟨-, d, hd, hp, hfirst⟩ := findIdx?_found _ devices 0 i hsel
    refine ⟨d, by simpa using hd, by simpa using hp, ?_⟩
    intro k hk dk hdk
    have := hfirst k (by omega) dk hdk
    simpa using this
  · intro hne
    unfold macos_update_device_info
    cases hf : (macosInputDevicesFrom 0 devices).find?
        (fun p => isBuiltinName p.2.name) with
    | some p => simp [hf]
    | none =>
      cases hi : macosInputDevicesFrom 0 devices with
      | nil => exact absurd hi hne
      | cons q qs => simp [hf, hi]
  · intro hempty
    unfold macos_update_device_info
    rw [hempty]
    simp [List.find?]
  · intro i hfound
    unfold record_microphone_device
    rw [hfound]
  · intro hnone
    unfold record_microphone_device
    rw [hnone]

/-- Witness for the amended C9 at a concrete device inventory: the
generic chain keeps an explicit selection, and the macOS refresh result
ignores the cached selection. -/
theorem claim_C9_device_priority_amended_witness :
    (update_device_info [blackholeDevice, builtinMicDevice] (some 1)
        ⟨some 5, none, false⟩).selectedDevice = some 5
    ∧ macos_update_device_info [blackholeDevice, builtinMicDevice] (some "0")
      = macos_update_device_info [blackholeDevice, builtinMicDevice] none
    ∧ record_microphone_device [blackholeDevice, builtinMicDevice] 0 = 1 :=
  ⟨(claim_C9_device_priority_amended [blackholeDevice, builtinMicDevice]
      (some 1) ⟨some 5, none, false⟩ (some "0") 0).1 5 rfl,
    (claim_C9_device_priority_amended [blackholeDevice, builtinMicDevice]
      (some 1) ⟨some 5, none, false⟩ (some "0") 0).2.2.2.2.1 (by decide),
    (claim_C9_device_priority_amended [blackholeDevice, builtinMicDevice]
      (some 1) ⟨some 5, none, false⟩ (some "0") 0).2.2.2.2.2.2.1 1 (by decide)⟩

end Claims
